import Mathlib

/-!
Verification of the productivity grade calendar (`script.js`).

The script builds a month grid with `buildCalendar(month, year)`, stores a
letter grade per day in `localStorage` under keys `YYYY-M-D` (zero padded),
and navigates months by mutating a `Date` object with `setMonth`.

The embedding below translates the script together with the ECMAScript
semantics of the platform primitives it calls:

* `new Date(year, month, day)` applies `MakeFullYear`: an integer year
  argument in `[0, 99]` denotes `1900 + year`; `MakeDay` then interprets
  the (possibly out-of-range) month and day fields in the proleptic
  Gregorian calendar.
* `Date.prototype.getDay` is the Sunday-based weekday of the proleptic
  Gregorian date.
* `Date.prototype.setMonth(m)` keeps the stored day-of-month and
  renormalises via `MakeDay` (no two-digit-year rule here).
* `localStorage` is a string-to-string key/value store; strings are
  modelled as `List Char`.
-/

/-- Proleptic Gregorian leap-year test (ECMAScript `DaysInYear`):
divisible by 4 and (not divisible by 100 or divisible by 400).
Only divisibility by a positive constant is used, so the choice of
integer remainder convention does not matter. -/
def isLeap (y : Int) : Bool :=
  y % 4 = 0 && (!(y % 100 = 0) || y % 400 = 0)

/-- Length of 0-based month `m` of year `y` in the proleptic Gregorian
calendar (the value of `new Date(y, m + 1, 0).getDate()` after the
constructor's year adjustment has been applied).  Months `≥ 12` do not
occur in the script (`getMonth` is always in `[0,11]`); the catch-all
branch is arbitrary. -/
def gregMonthLen (y : Int) : Nat → Nat
  | 0 => 31
  | 1 => if isLeap y then 29 else 28
  | 2 => 31
  | 3 => 30
  | 4 => 31
  | 5 => 30
  | 6 => 31
  | 7 => 31
  | 8 => 30
  | 9 => 31
  | 10 => 30
  | 11 => 31
  | _ => 31

/-- ECMAScript `MakeFullYear`, applied by the `Date(year, month, ...)`
constructor: an integer year in `[0, 99]` is interpreted as `1900 + year`;
all other years are taken literally. -/
def jsAdjustYear (y : Int) : Int :=
  if 0 ≤ y ∧ y ≤ 99 then 1900 + y else y

/-- Number of days from 1970-01-01 to the proleptic Gregorian date
(`y`, `m`, `d`) with 1-based month `m`; negative for earlier dates.
Standard civil-from-date computation over 400-year eras, valid for all
integer years. -/
def daysFromCivil (y : Int) (m : Nat) (d : Nat) : Int :=
  let yAdj : Int := if m ≤ 2 then y - 1 else y
  let era : Int := yAdj.fdiv 400
  let yoe : Int := yAdj - era * 400
  let mp : Int := ((m : Int) + 9).emod 12
  let doy : Int := (153 * mp + 2).fdiv 5 + (d : Int) - 1
  let doe : Int := yoe * 365 + yoe.fdiv 4 - yoe.fdiv 100 + doy
  era * 146097 + doe - 719468

/-- Sunday-based weekday (0 = Sunday .. 6 = Saturday) of day `d` of
0-based month `m` of year `y` in the proleptic Gregorian calendar:
1970-01-01 was a Thursday (weekday 4).  This is `getDay` of a `Date`
holding that date. -/
def weekdayOf (y : Int) (m : Nat) (d : Nat) : Nat :=
  ((daysFromCivil y (m + 1) d + 4).emod 7).toNat

/-- `const firstDay = new Date(year, month, 1).getDay();`
(the constructor applies the two-digit-year adjustment). -/
def firstDay (y : Int) (m : Nat) : Nat :=
  weekdayOf (jsAdjustYear y) m 1

/-- `const daysInMonth = new Date(year, month + 1, 0).getDate();`
for `month` in `[0,11]`: day `0` of month `m + 1` is the last day of
month `m` of the (constructor-adjusted) year. -/
def daysInMonth (y : Int) (m : Nat) : Nat :=
  gregMonthLen (jsAdjustYear y) m

/-- `const totalCells = firstDay + daysInMonth;
const rowCount = Math.ceil(totalCells / 7);`  (`totalCells ≤ 37`, so the
floating-point division is exact and `Math.ceil` is the natural-number
ceiling division). -/
def rowCount (y : Int) (m : Nat) : Nat :=
  (firstDay y m + daysInMonth y m + 6) / 7

/-- The navigation state `let currentDate = new Date()`: a `Date` holds a
full calendar date; `month` is 0-based and `day` is 1-based. -/
structure JsDate where
  year : Int
  month : Nat
  day : Nat
deriving DecidableEq

/-- ECMAScript `Date.prototype.setMonth(m)`: the stored year is offset by
`⌊m / 12⌋`, the month becomes `m mod 12`, and the kept day-of-month is
renormalised by `MakeDay` — a day past the end of the new month carries
into the following month.  For day-of-month values `≤ 31` (the only ones
a `Date` can hold) at most one carry occurs, since every month has at
least 28 days. -/
def setMonth (s : JsDate) (m : Int) : JsDate :=
  let y1 : Int := s.year + m.fdiv 12
  let m1 : Nat := (m.emod 12).toNat
  let len : Nat := gregMonthLen y1 m1
  if s.day ≤ len then ⟨y1, m1, s.day⟩
  else if m1 = 11 then ⟨y1 + 1, 0, s.day - len⟩
  else ⟨y1, m1 + 1, s.day - len⟩

/-- `prevMonthBtn` click handler state update:
`currentDate.setMonth(currentDate.getMonth() - 1)`. -/
def prevClick (s : JsDate) : JsDate :=
  setMonth s ((s.month : Int) - 1)

/-- `nextMonthBtn` click handler state update:
`currentDate.setMonth(currentDate.getMonth() + 1)`. -/
def nextClick (s : JsDate) : JsDate :=
  setMonth s ((s.month : Int) + 1)

/-- The decimal digit character for `n < 10`. -/
def digitChar (n : Nat) : Char :=
  Char.ofNat (48 + n)

/-- Decimal rendering worker: structural recursion on a fuel argument so
that the kernel can evaluate it.  `natToCharsAux fuel n acc` prepends the
decimal digits of `n` to `acc`; any `fuel > n` is sufficient. -/
def natToCharsAux : Nat → Nat → List Char → List Char
  | 0, _, acc => acc
  | fuel + 1, n, acc =>
    if n < 10 then digitChar n :: acc
    else natToCharsAux fuel (n / 10) (digitChar (n % 10) :: acc)

/-- Decimal digit string of a natural number (`Number.prototype.toString`
for a nonnegative integer). -/
def natToChars (n : Nat) : List Char :=
  natToCharsAux (n + 1) n []

/-- `` `${year}` `` for an integer year: decimal digits, with a leading
minus sign when negative. -/
def intToChars (y : Int) : List Char :=
  if y < 0 then '-' :: natToChars (-y).toNat else natToChars y.toNat

/-- `function pad(num) { return num.toString().padStart(2, '0'); }`:
one leading zero below 10, otherwise the digits unchanged (`padStart`
never truncates). -/
def pad (n : Nat) : List Char :=
  if n < 10 then '0' :: natToChars n else natToChars n

/-- ``const dateStr = `${year}-${pad(month + 1)}-${pad(day)}`;`` with the
raw `year` parameter and 0-based `m`. -/
def dateKeyChars (y : Int) (m : Nat) (d : Nat) : List Char :=
  intToChars y ++ '-' :: (pad (m + 1) ++ '-' :: pad d)

/-- Value of a decimal digit string (used to state that the date key
parses back to its components). -/
def charsToNat (cs : List Char) : Nat :=
  cs.foldl (fun a c => 10 * a + (c.toNat - 48)) 0

/-- `localStorage`: a string-keyed, string-valued store. -/
abbrev Store := List (List Char × List Char)

/-- The empty store. -/
def lsEmpty : Store := []

/-- `localStorage.getItem(k)`: the stored value, or `none` (JS `null`)
when the key is absent. -/
def lsGet : Store → List Char → Option (List Char)
  | [], _ => none
  | (k', v) :: rest, k => if k' = k then some v else lsGet rest k

/-- `localStorage.setItem(k, v)`: overwrites any existing value for `k`. -/
def lsSet : Store → List Char → List Char → Store
  | [], k, v => [(k, v)]
  | (k', v') :: rest, k, v =>
    if k' = k then (k, v) :: rest else (k', v') :: lsSet rest k v

/-- `localStorage.removeItem(k)`: removes the key entirely. -/
def lsRemove : Store → List Char → Store
  | [], _ => []
  | (k', v') :: rest, k =>
    if k' = k then lsRemove rest k else (k', v') :: lsRemove rest k

/-- One `<td>` of the grid.  `day`/`key` are present exactly for in-month
cells; `selectVal` is the string assigned to the grade `<select>`'s value
property (`''` is the default option); `classes` is the cell's class list
(an ordered set, as `classList` maintains it). -/
structure Cell where
  day : Option Nat
  key : Option (List Char)
  selectVal : List Char
  classes : List (List Char)
deriving DecidableEq

/-- The empty (out-of-month) cell: no day number, no date key, and the
`<td>` carries no select and no classes. -/
def emptyCell : Cell := ⟨none, none, [], []⟩

/-- `` `grade-${grade.toLowerCase()}` `` (`applyGradeClass`). -/
def gradeClass (g : List Char) : List Char :=
  ['g', 'r', 'a', 'd', 'e', '-'] ++ g.map Char.toLower

/-- `classList.add(c)`: appends the token unless already present. -/
def classAdd (cs : List (List Char)) (c : List Char) : List (List Char) :=
  if c ∈ cs then cs else cs ++ [c]

/-- The six class names removed by `removeGradeClasses`. -/
def sixGradeClassList : List (List Char) :=
  [['g', 'r', 'a', 'd', 'e', '-', 's'], ['g', 'r', 'a', 'd', 'e', '-', 'a'],
   ['g', 'r', 'a', 'd', 'e', '-', 'b'], ['g', 'r', 'a', 'd', 'e', '-', 'c'],
   ['g', 'r', 'a', 'd', 'e', '-', 'd'], ['g', 'r', 'a', 'd', 'e', '-', 'f']]

/-- `removeGradeClasses(cell)`: `classList.remove('grade-s', ..., 'grade-f')`
drops exactly those six tokens. -/
def removeGradeClasses (cs : List (List Char)) : List (List Char) :=
  cs.filter (fun c => decide (c ∉ sixGradeClassList))

/-- The six grade-class tokens present on a cell (its visual
classification; `[]` means the classification "none"). -/
def sixOf (cs : List (List Char)) : List (List Char) :=
  cs.filter (fun c => decide (c ∈ sixGradeClassList))

/-- The six offered grade option values `['S','A','B','C','D','F']`. -/
def gradeOptionValues : List (List Char) :=
  [['S'], ['A'], ['B'], ['C'], ['D'], ['F']]

/-- Construction of an in-month `<td>` for day `d` (loop body of
`buildCalendar`, lines 68–123): the day number and date key are attached;
the select starts on the blank default option; then
`const savedGrade = localStorage.getItem(dateStr); if (savedGrade) { ... }`
applies the saved value — `null` and `''` are falsy, any other string is
assigned to the select and its grade class is added to the fresh cell. -/
def mkDayCell (s : Store) (y : Int) (m : Nat) (d : Nat) : Cell :=
  let key := dateKeyChars y m d
  match lsGet s key with
  | some g =>
    if g = [] then ⟨some d, some key, [], []⟩
    else ⟨some d, some key, g, classAdd [] (gradeClass g)⟩
  | none => ⟨some d, some key, [], []⟩

/-- One iteration of the cell loop at linear index `idx = row * 7 + col`
with running counter `dayCounter = dc`:
`if (cellIndex >= firstDay && dayCounter <= daysInMonth)` the cell is the
in-month cell for day `dc` and the counter advances, otherwise the `<td>`
stays empty.  Returns the cell and the updated counter. -/
def mkCell (s : Store) (y : Int) (m : Nat) (fd days idx dc : Nat) :
    Cell × Nat :=
  if fd ≤ idx ∧ dc ≤ days then (mkDayCell s y m dc, dc + 1)
  else (emptyCell, dc)

/-- `n` consecutive iterations of the cell loop starting at linear index
`idx` with counter `dc`: the produced cells and the final counter. -/
def cellsFrom (s : Store) (y : Int) (m : Nat) (fd days : Nat) :
    Nat → Nat → Nat → List Cell × Nat
  | _, dc, 0 => ([], dc)
  | idx, dc, n + 1 =>
    let p := mkCell s y m fd days idx dc
    let q := cellsFrom s y m fd days (idx + 1) p.2 n
    (p.1 :: q.1, q.2)

/-- The row loop of `buildCalendar`: row `row` consists of the 7 cells at
linear indices `row * 7 + 0 .. row * 7 + 6`, and the day counter is
carried from row to row. -/
def rowsAux (s : Store) (y : Int) (m : Nat) (fd days : Nat) :
    Nat → Nat → Nat → List (List Cell)
  | _, _, 0 => []
  | row, dc, rLeft + 1 =>
    let p := cellsFrom s y m fd days (row * 7) dc 7
    p.1 :: rowsAux s y m fd days (row + 1) p.2 rLeft

/-- The `rowCount` week rows produced by `buildCalendar(month, year)`
against store `s` (starting at row 0 with `let dayCounter = 1`). -/
def buildRows (s : Store) (y : Int) (m : Nat) : List (List Cell) :=
  rowsAux s y m (firstDay y m) (daysInMonth y m) 0 1 (rowCount y m)

/-- The cells of the grid in document order (row-major; the cell of
linear index `i` sits in row `i / 7`, column `i % 7`). -/
def buildCells (s : Store) (y : Int) (m : Nat) : List Cell :=
  (buildRows s y m).flatten

/-- The `change` handler closed over a cell's `td` and `dateStr`
(lines 107–118): remove the six grade classes, then a truthy (non-empty)
selected value is applied and stored while a falsy one removes the key.
Returns the updated store and the cell's updated class list. -/
def changeHandler (s : Store) (dateStr : List Char)
    (tdClasses : List (List Char)) (v : List Char) :
    Store × List (List Char) :=
  let cs1 := removeGradeClasses tdClasses
  if v ≠ [] then (lsSet s dateStr v, classAdd cs1 (gradeClass v))
  else (lsRemove s dateStr, cs1)

/-- A full `buildCalendar` invocation as it acts on the `<tbody>`
contents: `calendarBody.innerHTML = ''` discards the previous children,
then the week rows are appended one by one. -/
def renderCalendar (_body : List (List Cell)) (s : Store) (y : Int)
    (m : Nat) : List (List Cell) :=
  let cleared : List (List Cell) := []
  (buildRows s y m).foldl (fun b tr => b ++ [tr]) cleared

/-- The cell the grid puts at linear index `i`: the in-month cell for day
`i + 1 - firstDay` when `firstDay ≤ i < firstDay + daysInMonth`, the
empty cell otherwise. -/
def cellAt (s : Store) (y : Int) (m fd days : Nat) (i : Nat) : Cell :=
  if fd ≤ i ∧ i < fd + days then mkDayCell s y m (i + 1 - fd) else emptyCell

/-- The weekday index is always in `[0, 7)`. -/
lemma weekdayOf_lt_seven (y : Int) (m d : Nat) : weekdayOf y m d < 7 := by
  unfold weekdayOf
  have h1 : 0 ≤ (daysFromCivil y (m + 1) d + 4).emod 7 :=
    Int.emod_nonneg _ (by decide)
  have h2 : (daysFromCivil y (m + 1) d + 4).emod 7 < 7 :=
    Int.emod_lt_of_pos _ (by decide)
  omega

lemma firstDay_lt_seven (y : Int) (m : Nat) : firstDay y m < 7 :=
  weekdayOf_lt_seven _ _ _

/-- Outside `[0, 99]` the constructor's year adjustment is the identity. -/
lemma jsAdjustYear_eq_self (y : Int) (hy : y < 0 ∨ 100 ≤ y) :
    jsAdjustYear y = y := by
  unfold jsAdjustYear
  rw [if_neg (by omega)]

/-- Every month the script can ask for has between 28 and 31 days. -/
lemma daysInMonth_bounds (y : Int) (m : Nat) (hm : m < 12) :
    28 ≤ daysInMonth y m ∧ daysInMonth y m ≤ 31 := by
  unfold daysInMonth
  interval_cases m <;> simp only [gregMonthLen] <;>
    first
    | omega
    | (split <;> omega)

/-- `rowCount` rows of 7 cells cover all `firstDay + daysInMonth` cells. -/
lemma rowCount_mul_ge (y : Int) (m : Nat) :
    firstDay y m + daysInMonth y m ≤ rowCount y m * 7 := by
  unfold rowCount
  have h := Nat.div_add_mod (firstDay y m + daysInMonth y m + 6) 7
  have h2 : (firstDay y m + daysInMonth y m + 6) % 7 < 7 :=
    Nat.mod_lt _ (by omega)
  omega

/-- `rowCount` is minimal among row counts that cover all cells. -/
lemma rowCount_min (y : Int) (m : Nat) (R : Nat)
    (h : firstDay y m + daysInMonth y m ≤ R * 7) : rowCount y m ≤ R := by
  unfold rowCount
  have hd := Nat.div_add_mod (firstDay y m + daysInMonth y m + 6) 7
  have h2 : (firstDay y m + daysInMonth y m + 6) % 7 < 7 :=
    Nat.mod_lt _ (by omega)
  omega

lemma lsGet_lsSet_self (s : Store) (k v : List Char) :
    lsGet (lsSet s k v) k = some v := by
  induction s with
  | nil => simp [lsSet, lsGet]
  | cons p rest ih =>
    by_cases h : p.1 = k
    · simp [lsSet, lsGet, h]
    · simp [lsSet, lsGet, h, ih]

lemma lsGet_lsRemove_self (s : Store) (k : List Char) :
    lsGet (lsRemove s k) k = none := by
  induction s with
  | nil => simp [lsRemove, lsGet]
  | cons p rest ih =>
    by_cases h : p.1 = k
    · simp [lsRemove, h, ih]
    · simp [lsRemove, lsGet, h, ih]

lemma mkDayCell_day (s : Store) (y : Int) (m d : Nat) :
    (mkDayCell s y m d).day = some d := by
  cases h : lsGet s (dateKeyChars y m d) with
  | none => simp [mkDayCell, h]
  | some g => by_cases hg : g = [] <;> simp [mkDayCell, h, hg]

lemma mkDayCell_key (s : Store) (y : Int) (m d : Nat) :
    (mkDayCell s y m d).key = some (dateKeyChars y m d) := by
  cases h : lsGet s (dateKeyChars y m d) with
  | none => simp [mkDayCell, h]
  | some g => by_cases hg : g = [] <;> simp [mkDayCell, h, hg]

lemma mkDayCell_of_get_none (s : Store) (y : Int) (m d : Nat)
    (h : lsGet s (dateKeyChars y m d) = none) :
    mkDayCell s y m d = ⟨some d, some (dateKeyChars y m d), [], []⟩ := by
  simp [mkDayCell, h]

lemma mkDayCell_of_get_some (s : Store) (y : Int) (m d : Nat)
    (g : List Char) (h : lsGet s (dateKeyChars y m d) = some g)
    (hg : g ≠ []) :
    mkDayCell s y m d =
      ⟨some d, some (dateKeyChars y m d), g, [gradeClass g]⟩ := by
  simp [mkDayCell, h, hg, classAdd]

lemma mkDayCell_of_get_nil (s : Store) (y : Int) (m d : Nat)
    (h : lsGet s (dateKeyChars y m d) = some []) :
    mkDayCell s y m d = ⟨some d, some (dateKeyChars y m d), [], []⟩ := by
  simp [mkDayCell, h]

/-- Closed form of the cell loop.  The counter invariant
`dc + min idx fd = 1 + min idx (fd + days)` says `dc` equals one plus the
number of in-month indices below `idx`; under it the loop emits exactly
`cellAt` at each visited index and re-establishes the invariant. -/
lemma cellsFrom_closed (s : Store) (y : Int) (m fd days : Nat) :
    ∀ n idx dc, dc + min idx fd = 1 + min idx (fd + days) →
      cellsFrom s y m fd days idx dc n =
        ((List.range' idx n).map (cellAt s y m fd days),
          1 + min (idx + n) (fd + days) - min (idx + n) fd) := by
  intro n
  induction n with
  | zero =>
    intro idx dc h
    simp only [cellsFrom, List.range', List.map_nil, Prod.mk.injEq]
    exact ⟨trivial, by omega⟩
  | succ n ih =>
    intro idx dc h
    by_cases hc : fd ≤ idx ∧ dc ≤ days
    · have hin : fd ≤ idx ∧ idx < fd + days := by omega
      have hdc : dc = idx + 1 - fd := by omega
      have hinv : (dc + 1) + min (idx + 1) fd =
          1 + min (idx + 1) (fd + days) := by omega
      have hhead : cellAt s y m fd days idx = mkDayCell s y m dc := by
        unfold cellAt
        rw [if_pos hin, hdc]
      simp only [cellsFrom, mkCell, if_pos hc]
      rw [ih (idx + 1) (dc + 1) hinv, List.range'_succ, List.map_cons,
        hhead]
      simp only [Prod.mk.injEq]
      exact ⟨trivial, by omega⟩
    · have hout : ¬ (fd ≤ idx ∧ idx < fd + days) := by omega
      have hinv : dc + min (idx + 1) fd =
          1 + min (idx + 1) (fd + days) := by omega
      have hhead : cellAt s y m fd days idx = emptyCell := by
        unfold cellAt
        rw [if_neg hout]
      simp only [cellsFrom, mkCell, if_neg hc]
      rw [ih (idx + 1) dc hinv, List.range'_succ, List.map_cons, hhead]
      simp only [Prod.mk.injEq]
      exact ⟨trivial, by omega⟩

/-- Each row the row loop emits holds exactly 7 cells. -/
lemma cellsFrom_fst_length (s : Store) (y : Int) (m fd days : Nat) :
    ∀ n idx dc, ((cellsFrom s y m fd days idx dc n).1).length = n := by
  intro n
  induction n with
  | zero => intro idx dc; rfl
  | succ n ih =>
    intro idx dc
    simp only [cellsFrom, List.length_cons, ih]

lemma rowsAux_length (s : Store) (y : Int) (m fd days : Nat) :
    ∀ R row dc, (rowsAux s y m fd days row dc R).length = R := by
  intro R
  induction R with
  | zero => intro row dc; rfl
  | succ R ih =>
    intro row dc
    simp only [rowsAux, List.length_cons, ih]

lemma rowsAux_mem_length (s : Store) (y : Int) (m fd days : Nat) :
    ∀ R row dc r, r ∈ rowsAux s y m fd days row dc R → r.length = 7 := by
  intro R
  induction R with
  | zero => intro row dc r hr; cases hr
  | succ R ih =>
    intro row dc r hr
    rcases List.mem_cons.mp hr with h | h
    · rw [h]
      exact cellsFrom_fst_length s y m fd days 7 _ _
    · exact ih _ _ _ h

/-- Flattening the row loop gives the cell loop over all
`R * 7` linear indices. -/
lemma rowsAux_flatten (s : Store) (y : Int) (m fd days : Nat) :
    ∀ R row dc, dc + min (row * 7) fd = 1 + min (row * 7) (fd + days) →
      (rowsAux s y m fd days row dc R).flatten =
        (List.range' (row * 7) (R * 7)).map (cellAt s y m fd days) := by
  intro R
  induction R with
  | zero =>
    intro row dc h
    simp [rowsAux, List.range']
  | succ R ih =>
    intro row dc h
    have hrow := cellsFrom_closed s y m fd days 7 (row * 7) dc h
    have hinv : (1 + min (row * 7 + 7) (fd + days) - min (row * 7 + 7) fd) +
        min ((row + 1) * 7) fd = 1 + min ((row + 1) * 7) (fd + days) := by
      omega
    simp only [rowsAux, List.flatten_cons, hrow, ih (row + 1) _ hinv]
    have hmul : (R + 1) * 7 = R * 7 + 7 := by omega
    have hmul2 : (row + 1) * 7 = row * 7 + 7 := by omega
    rw [hmul, hmul2, ← List.range'_append (row * 7) 7 (R * 7) 1,
      List.map_append]

/-- The grid, cell by cell: `buildCells` is `cellAt` applied to every
linear index below `rowCount * 7`. -/
lemma buildCells_eq (s : Store) (y : Int) (m : Nat) :
    buildCells s y m =
      (List.range' 0 (rowCount y m * 7)).map
        (cellAt s y m (firstDay y m) (daysInMonth y m)) := by
  unfold buildCells buildRows
  rw [rowsAux_flatten s y m _ _ (rowCount y m) 0 1 (by omega)]

/-- Master indexing lemma: the cell at linear index `i` of the rendered
grid. -/
lemma buildCells_getElem (s : Store) (y : Int) (m i : Nat) :
    (buildCells s y m)[i]? =
      if i < rowCount y m * 7 then
        some (cellAt s y m (firstDay y m) (daysInMonth y m) i)
      else none := by
  rw [buildCells_eq, List.getElem?_map]
  by_cases hi : i < rowCount y m * 7
  · rw [List.getElem?_range' 0 1 hi, if_pos hi]
    norm_num
  · rw [if_neg hi]
    have hlen : ((List.range' 0 (rowCount y m * 7))).length ≤ i := by
      rw [List.length_range']
      omega
    rw [List.getElem?_eq_none hlen]
    rfl

lemma buildCells_length (s : Store) (y : Int) (m : Nat) :
    (buildCells s y m).length = rowCount y m * 7 := by
  rw [buildCells_eq]
  simp [List.length_range']

lemma buildRows_length (s : Store) (y : Int) (m : Nat) :
    (buildRows s y m).length = rowCount y m :=
  rowsAux_length s y m _ _ _ _ _

/-- The day field of the grid cell at linear index `i`: in-month cells
carry day number `i + 1 - firstDay` and its date key, all other cells
carry neither. -/
lemma buildCells_day_eq (s : Store) (y : Int) (m i : Nat) (c : Cell)
    (hc : (buildCells s y m)[i]? = some c) :
    (firstDay y m ≤ i ∧ i < firstDay y m + daysInMonth y m ∧
        c.day = some (i + 1 - firstDay y m) ∧
        c.key = some (dateKeyChars y m (i + 1 - firstDay y m)))
    ∨ (¬ (firstDay y m ≤ i ∧ i < firstDay y m + daysInMonth y m) ∧
        c.day = none ∧ c.key = none) := by
  rw [buildCells_getElem] at hc
  by_cases hi : i < rowCount y m * 7
  · rw [if_pos hi] at hc
    injection hc with hc
    unfold cellAt at hc
    by_cases hin : firstDay y m ≤ i ∧ i < firstDay y m + daysInMonth y m
    · rw [if_pos hin] at hc
      exact Or.inl ⟨hin.1, hin.2, by rw [← hc, mkDayCell_day],
        by rw [← hc, mkDayCell_key]⟩
    · rw [if_neg hin] at hc
      exact Or.inr ⟨hin, by rw [← hc]; rfl, by rw [← hc]; rfl⟩
  · rw [if_neg hi] at hc
    cases hc

/-- The grid position of the in-month cell of day `d`. -/
lemma buildCells_at_day (s : Store) (y : Int) (m d : Nat)
    (hd1 : 1 ≤ d) (hd2 : d ≤ daysInMonth y m) :
    (buildCells s y m)[firstDay y m + d - 1]? = some (mkDayCell s y m d) := by
  have hcov := rowCount_mul_ge y m
  have hi : firstDay y m + d - 1 < rowCount y m * 7 := by omega
  rw [buildCells_getElem, if_pos hi]
  unfold cellAt
  rw [if_pos (by omega),
    show firstDay y m + d - 1 + 1 - firstDay y m = d from by omega]

/-- C1 (amended: the year is outside `[0, 99]`, where the `Date`
constructor's two-digit-year rule makes the grid render year
`1900 + year` instead): for every store, month in `[0,11]` and such a
year, the grid places every day `1 .. daysInMonth` in exactly one cell,
in strictly increasing order of linear (row-major) position; the first
in-month cell sits at linear index `firstDay < 7` — hence in row 0,
column `firstDay` — which equals the weekday index (0 = Sunday) of day 1
of that month; and every cell before it or after the last day carries no
day number and no date key. -/
theorem buildCalendar_layout (s : Store) (y : Int) (m : Nat) (hm : m < 12)
    (hy : y < 0 ∨ 100 ≤ y) :
    (buildCells s y m).length = rowCount y m * 7
    ∧ (∀ d, 1 ≤ d → d ≤ daysInMonth y m →
        ∃! i : Nat, ∃ c : Cell,
          (buildCells s y m)[i]? = some c ∧ c.day = some d)
    ∧ (∀ (i j : Nat) (ci cj : Cell) (di dj : Nat), i < j →
        (buildCells s y m)[i]? = some ci →
        (buildCells s y m)[j]? = some cj →
        ci.day = some di → cj.day = some dj → di < dj)
    ∧ (∃ c, (buildCells s y m)[firstDay y m]? = some c ∧ c.day = some 1)
    ∧ firstDay y m < 7
    ∧ firstDay y m = weekdayOf y m 1
    ∧ (∀ i c, (buildCells s y m)[i]? = some c →
        (i < firstDay y m ∨ firstDay y m + daysInMonth y m ≤ i) →
        c.day = none ∧ c.key = none) := by
  have hdays := daysInMonth_bounds y m hm
  refine ⟨buildCells_length s y m, ?_, ?_, ?_, firstDay_lt_seven y m, ?_, ?_⟩
  · intro d hd1 hd2
    refine ⟨firstDay y m + d - 1,
      ⟨mkDayCell s y m d, buildCells_at_day s y m d hd1 hd2,
        mkDayCell_day s y m d⟩, ?_⟩
    intro j ⟨c, hc, hday⟩
    rcases buildCells_day_eq s y m j c hc with ⟨h1, h2, h3, _⟩ | ⟨_, h3, _⟩
    · rw [h3] at hday
      injection hday with hday
      omega
    · rw [h3] at hday
      cases hday
  · intro i j ci cj di dj hij hi hj hdi hdj
    rcases buildCells_day_eq s y m i ci hi with ⟨hi1, hi2, hi3, _⟩ | ⟨_, hi3, _⟩
    · rcases buildCells_day_eq s y m j cj hj with ⟨hj1, hj2, hj3, _⟩ | ⟨_, hj3, _⟩
      · rw [hi3] at hdi
        rw [hj3] at hdj
        injection hdi with hdi
        injection hdj with hdj
        omega
      · rw [hj3] at hdj
        cases hdj
    · rw [hi3] at hdi
      cases hdi
  · have h := buildCells_at_day s y m 1 (le_refl 1) (by omega)
    rw [show firstDay y m + 1 - 1 = firstDay y m from by omega] at h
    exact ⟨mkDayCell s y m 1, h, mkDayCell_day s y m 1⟩
  · unfold firstDay
    rw [jsAdjustYear_eq_self y hy]
  · intro i c hc hout
    rcases buildCells_day_eq s y m i c hc with ⟨h1, h2, _, _⟩ | ⟨_, h3, h4⟩
    · omega
    · exact ⟨h3, h4⟩

/-- C1 witness: July 2023 (31 days, first day a Saturday). -/
theorem buildCalendar_layout_witness :
    (∃ c, (buildCells lsEmpty 2023 6)[firstDay 2023 6]? = some c ∧
        c.day = some 1)
    ∧ firstDay 2023 6 = weekdayOf 2023 6 1 :=
  ⟨(buildCalendar_layout lsEmpty 2023 6 (by decide) (by decide)).2.2.2.1,
    (buildCalendar_layout lsEmpty 2023 6 (by decide)
      (by decide)).2.2.2.2.2.1⟩

/-- C1 counterexample: for `year = 0`, `month = 0` the `Date`
constructor's two-digit-year rule makes the script lay out January 1900,
so the first in-month cell sits at column 1 (Monday, the weekday of
1900-01-01), while day 1 of month 0 of year 0 falls on weekday 6
(Saturday): the claimed equality of the first in-month column with the
weekday of day 1 fails. -/
theorem buildCalendar_layout_year_zero_cex :
    Option.map Cell.day ((buildCells lsEmpty 0 0)[0]?) = some none
    ∧ Option.map Cell.day ((buildCells lsEmpty 0 0)[1]?) = some (some 1)
    ∧ weekdayOf 0 0 1 = 6
    ∧ firstDay 0 0 = 1 := by
  decide

/-- C2 (amended: the year is outside `[0, 99]` — see C1 — and the
claim's example month is July 2023, which does start on a Saturday; the
grid of October 2023, which starts on a Sunday, has 5 rows): the number
of week rows equals `⌈(firstWeekdayOffset + daysInMonth) / 7⌉`, each row
is 7 cells wide, the rows cover all leading blanks and days with no
truncation (the last day of the month appears), and no smaller number of
7-wide rows could. -/
theorem buildCalendar_rowCount (s : Store) (y : Int) (m : Nat)
    (hm : m < 12) (hy : y < 0 ∨ 100 ≤ y) :
    (buildRows s y m).length = (weekdayOf y m 1 + daysInMonth y m + 6) / 7
    ∧ (∀ r ∈ buildRows s y m, r.length = 7)
    ∧ weekdayOf y m 1 + daysInMonth y m ≤ (buildRows s y m).length * 7
    ∧ (∀ R : Nat, weekdayOf y m 1 + daysInMonth y m ≤ R * 7 →
        (buildRows s y m).length ≤ R)
    ∧ (∃ (i : Nat) (c : Cell), (buildCells s y m)[i]? = some c ∧
        c.day = some (daysInMonth y m)) := by
  have hdays := daysInMonth_bounds y m hm
  have hfd : firstDay y m = weekdayOf y m 1 := by
    unfold firstDay
    rw [jsAdjustYear_eq_self y hy]
  refine ⟨?_, ?_, ?_, ?_, ?_⟩
  · rw [buildRows_length]
    unfold rowCount
    rw [hfd]
  · intro r hr
    exact rowsAux_mem_length s y m _ _ _ _ _ r hr
  · rw [buildRows_length, ← hfd]
    exact rowCount_mul_ge y m
  · intro R hR
    rw [buildRows_length]
    exact rowCount_min y m R (by omega)
  · refine ⟨firstDay y m + daysInMonth y m - 1, mkDayCell s y m (daysInMonth y m),
      buildCells_at_day s y m (daysInMonth y m) (by omega) (le_refl _), ?_⟩
    exact mkDayCell_day s y m (daysInMonth y m)

/-- C2 witness: July 2023 (31 days, starting Saturday) needs 6 rows. -/
theorem buildCalendar_rowCount_witness :
    (buildRows lsEmpty 2023 6).length =
        (weekdayOf 2023 6 1 + daysInMonth 2023 6 + 6) / 7
    ∧ (buildRows lsEmpty 2023 6).length = 6
    ∧ weekdayOf 2023 6 1 = 6 :=
  ⟨(buildCalendar_rowCount lsEmpty 2023 6 (by decide) (by decide)).1,
    by decide, by decide⟩

/-- C2 counterexample: October 2023 (`year = 2023`, `month = 9`) starts
on a Sunday, not a Saturday, and its grid has 5 rows, not the 6 the
claim asserts. -/
theorem buildCalendar_rowCount_oct2023_cex :
    (buildRows lsEmpty 2023 9).length = 5
    ∧ (buildRows lsEmpty 2023 9).length ≠ 6
    ∧ weekdayOf 2023 9 1 = 0 := by
  decide

/-- C3: the navigation handlers mutate the full `Date` (including its
day-of-month) with `setMonth`, whose day overflow breaks the claimed
pure (month, year) transitions.  With the state initialised on
2024-01-31 (a reachable initial state), `next` lands on 2024-03-02 —
month 2, not the claimed month 1 — and from 2024-03-31 `previous` lands
on 2024-03-02, not in February at all. -/
theorem navigation_setMonth_overflow :
    nextClick ⟨2024, 0, 31⟩ = ⟨2024, 2, 2⟩
    ∧ (nextClick ⟨2024, 0, 31⟩).month ≠ 1
    ∧ prevClick ⟨2024, 2, 31⟩ = ⟨2024, 2, 2⟩
    ∧ (prevClick ⟨2024, 2, 31⟩).month ≠ 1 := by
  decide

/-- C4 (amended: the year is outside `[0, 99]`; inside that range the
`Date` constructor maps the year to `1900 + year`, so e.g. year 0 —
divisible by 400 — still gets a 28-day February, that of 1900): February
has 29 days exactly when the year is divisible by 4 and (not divisible
by 100 or divisible by 400), else 28. -/
theorem feb_length_gregorian (y : Int) (hy : y < 0 ∨ 100 ≤ y) :
    daysInMonth y 1 =
      if y % 4 = 0 ∧ (y % 100 ≠ 0 ∨ y % 400 = 0) then 29 else 28 := by
  unfold daysInMonth
  rw [jsAdjustYear_eq_self y hy]
  by_cases h4 : y % 4 = 0 <;> by_cases h100 : y % 100 = 0 <;>
    by_cases h400 : y % 400 = 0 <;>
    simp [gregMonthLen, isLeap, h4, h100, h400]

/-- C4 witness: the four example years of the claim. -/
theorem feb_length_gregorian_witness :
    ((2024 : Int) < 0 ∨ 100 ≤ (2024 : Int))
    ∧ daysInMonth 2024 1 =
        (if (2024 : Int) % 4 = 0 ∧
            ((2024 : Int) % 100 ≠ 0 ∨ (2024 : Int) % 400 = 0)
         then 29 else 28)
    ∧ daysInMonth 2024 1 = 29 ∧ daysInMonth 2023 1 = 28
    ∧ daysInMonth 2000 1 = 29 ∧ daysInMonth 1900 1 = 28 :=
  ⟨by decide, feb_length_gregorian 2024 (by decide), by decide, by decide,
    by decide, by decide⟩

/-- C4 counterexample: year 0 is divisible by 400, so the claimed rule
gives 29 days, but the script builds February of year `1900 + 0 = 1900`
(the constructor's two-digit-year rule), which has 28. -/
theorem feb_length_year_zero_cex :
    daysInMonth 0 1 = 28
    ∧ ¬ (daysInMonth 0 1 =
        if (0 : Int) % 4 = 0 ∧ ((0 : Int) % 100 ≠ 0 ∨ (0 : Int) % 400 = 0)
        then 29 else 28) := by
  decide

lemma sixOf_removeGradeClasses (cs : List (List Char)) :
    sixOf (removeGradeClasses cs) = [] := by
  unfold sixOf removeGradeClasses
  rw [List.filter_eq_nil_iff]
  intro a ha
  have h2 := (List.mem_filter.mp ha).2
  simp only [decide_eq_true_eq] at h2 ⊢
  exact h2

lemma sixOf_classAdd_after_remove (cs : List (List Char)) (g : List Char) :
    sixOf (classAdd (removeGradeClasses cs) g) =
      if g ∈ sixGradeClassList then [g] else [] := by
  unfold classAdd
  by_cases hmem : g ∈ removeGradeClasses cs
  · rw [if_pos hmem, sixOf_removeGradeClasses]
    have hnot : g ∉ sixGradeClassList := by
      have h2 := (List.mem_filter.mp hmem).2
      simpa using h2
    rw [if_neg hnot]
  · rw [if_neg hmem]
    show List.filter _ (removeGradeClasses cs ++ [g]) = _
    rw [List.filter_append]
    have h1 := sixOf_removeGradeClasses cs
    unfold sixOf at h1
    rw [h1]
    by_cases hg : g ∈ sixGradeClassList <;> simp [List.filter, hg]

lemma classAdd_mem (cs : List (List Char)) (c : List Char) :
    c ∈ classAdd cs c := by
  unfold classAdd
  by_cases h : c ∈ cs
  · rw [if_pos h]
    exact h
  · rw [if_neg h]
    exact List.mem_append_right _ (List.mem_singleton.mpr rfl)

lemma mkDayCell_classes_cases (s : Store) (y : Int) (m d : Nat) :
    (mkDayCell s y m d).classes = []
    ∨ ∃ g, (mkDayCell s y m d).classes = [gradeClass g] := by
  cases hg : lsGet s (dateKeyChars y m d) with
  | none => rw [mkDayCell_of_get_none s y m d hg]; exact Or.inl rfl
  | some g =>
    by_cases hgn : g = []
    · subst hgn
      rw [mkDayCell_of_get_nil s y m d hg]
      exact Or.inl rfl
    · rw [mkDayCell_of_get_some s y m d g hg hgn]
      exact Or.inr ⟨g, rfl⟩

lemma mkDayCell_det (s s' : Store) (y : Int) (m d : Nat)
    (h : lsGet s (dateKeyChars y m d) = lsGet s' (dateKeyChars y m d)) :
    mkDayCell s y m d = mkDayCell s' y m d := by
  cases hg : lsGet s (dateKeyChars y m d) with
  | none =>
    rw [mkDayCell_of_get_none s y m d hg,
      mkDayCell_of_get_none s' y m d (by rw [← h, hg])]
  | some g =>
    by_cases hgn : g = []
    · subst hgn
      rw [mkDayCell_of_get_nil s y m d hg,
        mkDayCell_of_get_nil s' y m d (by rw [← h, hg])]
    · rw [mkDayCell_of_get_some s y m d g hg hgn,
        mkDayCell_of_get_some s' y m d g (by rw [← h, hg]) hgn]

/-- C9: a rebuild fully replaces the previously rendered rows — the
result never depends on what was rendered before (`innerHTML = ''`
first), so rebuilding twice for the same store and month leaves exactly
the single-rebuild result, with no residue of any earlier month. -/
theorem renderCalendar_idempotent (s : Store) (y : Int) (m : Nat)
    (b b' : List (List Cell)) :
    renderCalendar b s y m = buildRows s y m
    ∧ renderCalendar b s y m = renderCalendar b' s y m
    ∧ renderCalendar (renderCalendar b s y m) s y m =
        renderCalendar b s y m := by
  have hfold : ∀ (l acc : List (List Cell)),
      l.foldl (fun bd tr => bd ++ [tr]) acc = acc ++ l := by
    intro l
    induction l with
    | nil => intro acc; simp
    | cons x xs ih => intro acc; simp [List.foldl_cons, ih]
  unfold renderCalendar
  simp [hfold]

/-- C6: for any prior store contents, after `setItem(dateKey, "A")` a
rebuild of the containing month shows the day's cell with exactly the
class `grade-a` and select value `A`; after `removeItem(dateKey)` a
rebuild shows it with no grade class (classification "none") and the
default blank selection, and `getItem` yields absence. -/
theorem grade_roundtrip (s : Store) (y : Int) (m d : Nat) (_hm : m < 12)
    (hd1 : 1 ≤ d) (hd2 : d ≤ daysInMonth y m) :
    (∃ c : Cell,
      (buildCells (lsSet s (dateKeyChars y m d) ['A']) y m)[firstDay y m + d - 1]?
          = some c
        ∧ c.day = some d
        ∧ c.classes = [['g', 'r', 'a', 'd', 'e', '-', 'a']]
        ∧ c.selectVal = ['A'])
    ∧ (∃ c : Cell,
      (buildCells (lsRemove (lsSet s (dateKeyChars y m d) ['A'])
            (dateKeyChars y m d)) y m)[firstDay y m + d - 1]? = some c
        ∧ c.day = some d ∧ c.classes = [] ∧ c.selectVal = [])
    ∧ lsGet (lsRemove (lsSet s (dateKeyChars y m d) ['A'])
        (dateKeyChars y m d)) (dateKeyChars y m d) = none := by
  refine ⟨?_, ?_, lsGet_lsRemove_self _ _⟩
  · have hset := mkDayCell_of_get_some (lsSet s (dateKeyChars y m d) ['A'])
      y m d ['A'] (lsGet_lsSet_self s (dateKeyChars y m d) ['A'])
      (by decide)
    refine ⟨_, buildCells_at_day _ y m d hd1 hd2, ?_, ?_, ?_⟩
    · rw [hset]
    · rw [hset]
      show [gradeClass ['A']] = _
      decide
    · rw [hset]
  · have hrem := mkDayCell_of_get_none
      (lsRemove (lsSet s (dateKeyChars y m d) ['A']) (dateKeyChars y m d))
      y m d (lsGet_lsRemove_self _ _)
    exact ⟨_, buildCells_at_day _ y m d hd1 hd2, by rw [hrem],
      by rw [hrem], by rw [hrem]⟩

/-- C6 witness: January 5, 2024 on an empty store. -/
theorem grade_roundtrip_witness :
    (∃ c : Cell,
      (buildCells (lsSet lsEmpty (dateKeyChars 2024 0 5) ['A']) 2024 0)[firstDay 2024 0 + 5 - 1]?
          = some c
        ∧ c.day = some 5
        ∧ c.classes = [['g', 'r', 'a', 'd', 'e', '-', 'a']]
        ∧ c.selectVal = ['A'])
    ∧ lsGet (lsRemove (lsSet lsEmpty (dateKeyChars 2024 0 5) ['A'])
        (dateKeyChars 2024 0 5)) (dateKeyChars 2024 0 5) = none :=
  ⟨(grade_roundtrip lsEmpty 2024 0 5 (by decide) (by decide) (by decide)).1,
    (grade_roundtrip lsEmpty 2024 0 5 (by decide) (by decide)
      (by decide)).2.2⟩

/-- C7 (amended: only a blank selection is treated as clearing the
grade — the key is removed and the classification becomes none, with no
error; a non-blank value, even one outside `{S,A,B,C,D,F}`, is stored
verbatim and its `grade-` class applied.  Out-of-set values cannot arise
from the offered choice control, but the handler does not validate). -/
theorem change_blank_clears (s : Store) (k : List Char)
    (cs : List (List Char)) (v : List Char) :
    (v = [] →
      lsGet (changeHandler s k cs v).1 k = none
      ∧ sixOf (changeHandler s k cs v).2 = [])
    ∧ (v ≠ [] →
      lsGet (changeHandler s k cs v).1 k = some v
      ∧ gradeClass v ∈ (changeHandler s k cs v).2) := by
  constructor
  · intro hv
    subst hv
    unfold changeHandler
    simp only [ne_eq, not_true_eq_false, if_false]
    exact ⟨lsGet_lsRemove_self s k, sixOf_removeGradeClasses cs⟩
  · intro hv
    unfold changeHandler
    rw [if_pos hv]
    exact ⟨lsGet_lsSet_self s k v, classAdd_mem _ _⟩

/-- C7 witness: a blank selection removes the key and leaves no grade
class; the non-blank out-of-set value `X` is stored verbatim. -/
theorem change_blank_clears_witness :
    (lsGet (changeHandler (lsSet lsEmpty (dateKeyChars 2024 0 5) ['A'])
        (dateKeyChars 2024 0 5) [['g', 'r', 'a', 'd', 'e', '-', 'a']] []).1
      (dateKeyChars 2024 0 5) = none
    ∧ sixOf (changeHandler (lsSet lsEmpty (dateKeyChars 2024 0 5) ['A'])
        (dateKeyChars 2024 0 5) [['g', 'r', 'a', 'd', 'e', '-', 'a']] []).2
      = [])
    ∧ lsGet (changeHandler lsEmpty (dateKeyChars 2024 0 5) [] ['X']).1
        (dateKeyChars 2024 0 5) = some ['X'] :=
  ⟨(change_blank_clears (lsSet lsEmpty (dateKeyChars 2024 0 5) ['A'])
      (dateKeyChars 2024 0 5) [['g', 'r', 'a', 'd', 'e', '-', 'a']] []).1
      rfl,
    ((change_blank_clears lsEmpty (dateKeyChars 2024 0 5) [] ['X']).2
      (by decide)).1⟩

/-- C7 counterexample: the handler given the non-blank out-of-set value
`X` does not clear the grade — it stores `X` under the date key (so the
key is not removed from the store), falsifying the claim that any value
outside `{S,A,B,C,D,F}` is treated as clearing. -/
theorem change_out_of_set_cex :
    ¬ ((['X'] = ([] : List Char) ∨ ['X'] ∉ gradeOptionValues) →
        lsGet (changeHandler lsEmpty (dateKeyChars 2024 0 5) [] ['X']).1
          (dateKeyChars 2024 0 5) = none) := by
  decide

/-- C8: every cell of a freshly built grid carries at most one of the
six grade classes (none at all meaning classification "none"); the
change handler always leaves at most one, determined by the selected
value alone (independent of the previous class list and store); and the
classes a rebuild gives a day cell are determined by the store's value
for its date key. -/
theorem classification_exclusive :
    (∀ (s : Store) (y : Int) (m i : Nat) (c : Cell),
        (buildCells s y m)[i]? = some c → (sixOf c.classes).length ≤ 1)
    ∧ (∀ (s : Store) (k : List Char) (cs : List (List Char))
        (v : List Char), (sixOf (changeHandler s k cs v).2).length ≤ 1)
    ∧ (∀ (s s' : Store) (k k' : List Char) (cs cs' : List (List Char))
        (v : List Char),
        sixOf (changeHandler s k cs v).2 = sixOf (changeHandler s' k' cs' v).2)
    ∧ (∀ (s s' : Store) (y : Int) (m d : Nat),
        lsGet s (dateKeyChars y m d) = lsGet s' (dateKeyChars y m d) →
        (mkDayCell s y m d).classes = (mkDayCell s' y m d).classes) := by
  refine ⟨?_, ?_, ?_, ?_⟩
  · intro s y m i c hc
    have hcell : c.classes = [] ∨ ∃ g, c.classes = [gradeClass g] := by
      rw [buildCells_getElem] at hc
      by_cases hi : i < rowCount y m * 7
      · rw [if_pos hi] at hc
        injection hc with hc
        unfold cellAt at hc
        by_cases hin : firstDay y m ≤ i ∧
            i < firstDay y m + daysInMonth y m
        · rw [if_pos hin] at hc
          rw [← hc]
          exact mkDayCell_classes_cases s y m _
        · rw [if_neg hin] at hc
          rw [← hc]
          exact Or.inl rfl
      · rw [if_neg hi] at hc
        cases hc
    rcases hcell with h | ⟨g, h⟩
    · rw [h]
      exact Nat.le_of_lt_succ (by simp [sixOf])
    · rw [h]
      have := List.length_filter_le
        (fun c => decide (c ∈ sixGradeClassList)) [gradeClass g]
      simpa [sixOf] using this
  · intro s k cs v
    unfold changeHandler
    by_cases hv : v = []
    · simp only [hv, ne_eq, not_true_eq_false, if_false]
      rw [sixOf_removeGradeClasses]
      exact Nat.zero_le 1
    · rw [if_pos hv]
      show (sixOf (classAdd (removeGradeClasses cs) (gradeClass v))).length ≤ 1
      rw [sixOf_classAdd_after_remove]
      by_cases hg : gradeClass v ∈ sixGradeClassList <;> simp [hg]
  · intro s s' k k' cs cs' v
    unfold changeHandler
    by_cases hv : v = []
    · simp only [hv, ne_eq, not_true_eq_false, if_false]
      rw [sixOf_removeGradeClasses, sixOf_removeGradeClasses]
    · rw [if_pos hv, if_pos hv]
      show sixOf (classAdd (removeGradeClasses cs) (gradeClass v)) =
        sixOf (classAdd (removeGradeClasses cs') (gradeClass v))
      rw [sixOf_classAdd_after_remove, sixOf_classAdd_after_remove]
  · intro s s' y m d h
    rw [mkDayCell_det s s' y m d h]

/-- C8 witness: the built cell of 2023-07-01 and a change event carrying
value `B` on a cell already classed `grade-a`. -/
theorem classification_exclusive_witness :
    (sixOf (mkDayCell lsEmpty 2023 6 1).classes).length ≤ 1
    ∧ (sixOf (changeHandler lsEmpty (dateKeyChars 2023 6 1)
        [['g', 'r', 'a', 'd', 'e', '-', 'a']] ['B']).2).length ≤ 1 :=
  ⟨classification_exclusive.1 lsEmpty 2023 6 6 (mkDayCell lsEmpty 2023 6 1)
      (by decide),
    classification_exclusive.2.1 lsEmpty (dateKeyChars 2023 6 1)
      [['g', 'r', 'a', 'd', 'e', '-', 'a']] ['B']⟩

/-- C10: any non-empty stored value `v` — also one outside the six grade
symbols — is applied verbatim on rebuild: the day cell's select is
assigned `v` and the class `grade-` followed by the lowercase of `v` is
added, with no validation against the six-symbol set. -/
theorem load_no_validation (s : Store) (y : Int) (m d : Nat)
    (v : List Char) (_hm : m < 12) (hd1 : 1 ≤ d)
    (hd2 : d ≤ daysInMonth y m) (hv : v ≠ [])
    (hs : lsGet s (dateKeyChars y m d) = some v) :
    ∃ c : Cell, (buildCells s y m)[firstDay y m + d - 1]? = some c
      ∧ c.day = some d ∧ c.selectVal = v
      ∧ c.classes = [gradeClass v]
      ∧ gradeClass v = ['g', 'r', 'a', 'd', 'e', '-'] ++ v.map Char.toLower := by
  have h := mkDayCell_of_get_some s y m d v hs hv
  exact ⟨mkDayCell s y m d, buildCells_at_day s y m d hd1 hd2,
    by rw [h], by rw [h], by rw [h], rfl⟩

/-- C10 witness: the out-of-set stored value `X` on 2024-01-05 renders
verbatim with class `grade-x`. -/
theorem load_no_validation_witness :
    ∃ c : Cell,
      (buildCells (lsSet lsEmpty (dateKeyChars 2024 0 5) ['X']) 2024 0)[firstDay 2024 0 + 5 - 1]?
          = some c
        ∧ c.day = some 5 ∧ c.selectVal = ['X']
        ∧ c.classes = [gradeClass ['X']]
        ∧ gradeClass ['X'] =
            ['g', 'r', 'a', 'd', 'e', '-'] ++ ['X'].map Char.toLower :=
  load_no_validation (lsSet lsEmpty (dateKeyChars 2024 0 5) ['X']) 2024 0 5
    ['X'] (by decide) (by decide) (by decide) (by decide) (by decide)

lemma natToCharsAux_acc (fuel : Nat) :
    ∀ n acc, natToCharsAux fuel n acc = natToCharsAux fuel n [] ++ acc := by
  induction fuel with
  | zero => intro n acc; simp [natToCharsAux]
  | succ fuel ih =>
    intro n acc
    by_cases h : n < 10
    · simp [natToCharsAux, h]
    · simp only [natToCharsAux, if_neg h]
      rw [ih (n / 10) (digitChar (n % 10) :: acc),
        ih (n / 10) [digitChar (n % 10)]]
      simp

lemma natToCharsAux_fuel (fuel : Nat) :
    ∀ fuel' n, n < fuel → n < fuel' →
      natToCharsAux fuel n [] = natToCharsAux fuel' n [] := by
  induction fuel with
  | zero => intro fuel' n h; omega
  | succ fuel ih =>
    intro fuel' n h h'
    cases fuel' with
    | zero => omega
    | succ fuel' =>
      by_cases hn : n < 10
      · simp [natToCharsAux, hn]
      · have hdiv : n / 10 < n := Nat.div_lt_self (by omega) (by omega)
        simp only [natToCharsAux, if_neg hn]
        rw [natToCharsAux_acc fuel, natToCharsAux_acc fuel',
          ih fuel' (n / 10) (by omega) (by omega)]

/-- Defining equation of the decimal rendering, fuel eliminated. -/
lemma natToChars_eq (n : Nat) :
    natToChars n =
      if n < 10 then [digitChar n]
      else natToChars (n / 10) ++ [digitChar (n % 10)] := by
  by_cases h : n < 10
  · simp [natToChars, natToCharsAux, h]
  · have hdiv : n / 10 < n := Nat.div_lt_self (by omega) (by omega)
    rw [if_neg h]
    show natToCharsAux (n + 1) n [] = _
    simp only [natToCharsAux, if_neg h]
    rw [natToCharsAux_acc n, natToCharsAux_fuel n (n / 10 + 1) (n / 10)
      (by omega) (by omega)]
    rfl

lemma digitChar_isDigit (n : Nat) (h : n < 10) :
    (digitChar n).isDigit = true := by
  interval_cases n <;> decide

lemma digitChar_toNat (n : Nat) (h : n < 10) :
    (digitChar n).toNat = 48 + n := by
  interval_cases n <;> decide

lemma natToChars_all_digits (n : Nat) :
    (natToChars n).all Char.isDigit = true := by
  induction n using Nat.strong_induction_on with
  | _ n ih =>
    rw [natToChars_eq]
    by_cases h : n < 10
    · rw [if_pos h]
      simp [digitChar_isDigit n h]
    · rw [if_neg h]
      have hdiv : n / 10 < n := Nat.div_lt_self (by omega) (by omega)
      rw [List.all_append, ih (n / 10) hdiv]
      simp [digitChar_isDigit (n % 10) (Nat.mod_lt n (by omega))]

lemma natToChars_length_lt10 (n : Nat) (h : n < 10) :
    (natToChars n).length = 1 := by
  rw [natToChars_eq, if_pos h]
  rfl

lemma natToChars_length_ge10 (n : Nat) (h : 10 ≤ n) :
    (natToChars n).length = (natToChars (n / 10)).length + 1 := by
  rw [natToChars_eq, if_neg (by omega)]
  simp

lemma natToChars_length_two (n : Nat) (h1 : 10 ≤ n) (h2 : n ≤ 99) :
    (natToChars n).length = 2 := by
  have hq := Nat.div_add_mod n 10
  have hr : n % 10 < 10 := Nat.mod_lt _ (by omega)
  rw [natToChars_length_ge10 n h1, natToChars_length_lt10 (n / 10) (by omega)]

lemma natToChars_length_four (n : Nat) (h1 : 1000 ≤ n) (h2 : n ≤ 9999) :
    (natToChars n).length = 4 := by
  have hq := Nat.div_add_mod n 10
  have hr : n % 10 < 10 := Nat.mod_lt _ (by omega)
  have hq2 := Nat.div_add_mod (n / 10) 10
  have hr2 : n / 10 % 10 < 10 := Nat.mod_lt _ (by omega)
  rw [natToChars_length_ge10 n (by omega),
    natToChars_length_ge10 (n / 10) (by omega),
    natToChars_length_two (n / 10 / 10) (by omega) (by omega)]

lemma charsToNat_append_digit (l : List Char) (c : Char) :
    charsToNat (l ++ [c]) = 10 * charsToNat l + (c.toNat - 48) := by
  unfold charsToNat
  rw [List.foldl_append]
  rfl

/-- Rendering then parsing a natural number is the identity. -/
lemma charsToNat_natToChars (n : Nat) :
    charsToNat (natToChars n) = n := by
  induction n using Nat.strong_induction_on with
  | _ n ih =>
    rw [natToChars_eq]
    by_cases h : n < 10
    · rw [if_pos h]
      unfold charsToNat
      simp only [List.foldl_cons, List.foldl_nil]
      rw [digitChar_toNat n h]
      omega
    · have hdiv : n / 10 < n := Nat.div_lt_self (by omega) (by omega)
      rw [if_neg h, charsToNat_append_digit, ih (n / 10) hdiv,
        digitChar_toNat (n % 10) (Nat.mod_lt n (by omega))]
      have hq := Nat.div_add_mod n 10
      omega

lemma pad_length (n : Nat) (h : n ≤ 99) : (pad n).length = 2 := by
  unfold pad
  by_cases h10 : n < 10
  · rw [if_pos h10]
    simp [natToChars_length_lt10 n h10]
  · rw [if_neg h10]
    exact natToChars_length_two n (by omega) h

lemma pad_all_digits (n : Nat) : (pad n).all Char.isDigit = true := by
  unfold pad
  by_cases h10 : n < 10
  · rw [if_pos h10]
    simp only [List.all_cons, natToChars_all_digits]
    decide
  · rw [if_neg h10]
    exact natToChars_all_digits n

lemma charsToNat_pad (n : Nat) : charsToNat (pad n) = n := by
  unfold pad
  by_cases h10 : n < 10
  · rw [if_pos h10]
    show charsToNat ('0' :: natToChars n) = n
    unfold charsToNat
    simp only [List.foldl_cons]
    have h0 : 10 * 0 + ('0'.toNat - 48) = 0 := by decide
    rw [h0]
    exact charsToNat_natToChars n
  · rw [if_neg h10]
    exact charsToNat_natToChars n

/-- Shape of a date key for a four-digit year: ten characters,
`YYYY-MM-DD`, with each block parsing back to its component. -/
lemma dateKeyChars_format (y : Int) (m d : Nat) (hy1 : (1000 : Int) ≤ y)
    (hy2 : y ≤ 9999) (hm : m < 12) (hd1 : 1 ≤ d) (hd2 : d ≤ 31) :
    (dateKeyChars y m d).length = 10
    ∧ (dateKeyChars y m d)[4]? = some '-'
    ∧ (dateKeyChars y m d)[7]? = some '-'
    ∧ ((dateKeyChars y m d).take 4).all Char.isDigit = true
    ∧ (((dateKeyChars y m d).drop 5).take 2).all Char.isDigit = true
    ∧ ((dateKeyChars y m d).drop 8).all Char.isDigit = true
    ∧ (charsToNat ((dateKeyChars y m d).take 4) : Int) = y
    ∧ charsToNat (((dateKeyChars y m d).drop 5).take 2) = m + 1
    ∧ charsToNat ((dateKeyChars y m d).drop 8) = d := by
  have hYeq : intToChars y = natToChars y.toNat := by
    unfold intToChars
    rw [if_neg (by omega)]
  have hYlen : (natToChars y.toNat).length = 4 :=
    natToChars_length_four y.toNat (by omega) (by omega)
  have hMlen : (pad (m + 1)).length = 2 := pad_length (m + 1) (by omega)
  have hDlen : (pad d).length = 2 := pad_length d (by omega)
  have hsplit : dateKeyChars y m d =
      natToChars y.toNat ++ '-' :: (pad (m + 1) ++ '-' :: pad d) := by
    unfold dateKeyChars
    rw [hYeq]
  have htake4 : (dateKeyChars y m d).take 4 = natToChars y.toNat := by
    rw [hsplit, ← hYlen, List.take_left]
  have hdrop4 : (dateKeyChars y m d).drop 4 =
      '-' :: (pad (m + 1) ++ '-' :: pad d) := by
    rw [hsplit, ← hYlen, List.drop_left]
  have hdrop5 : (dateKeyChars y m d).drop 5 =
      pad (m + 1) ++ '-' :: pad d := by
    have h15 : (dateKeyChars y m d).drop 5 =
        ((dateKeyChars y m d).drop 4).drop 1 := by
      rw [List.drop_drop]
    rw [h15, hdrop4]
    rfl
  have htake52 : ((dateKeyChars y m d).drop 5).take 2 = pad (m + 1) := by
    rw [hdrop5, ← hMlen, List.take_left]
  have hdrop7 : (dateKeyChars y m d).drop 7 = '-' :: pad d := by
    have h57 : (dateKeyChars y m d).drop 7 =
        ((dateKeyChars y m d).drop 5).drop 2 := by
      rw [List.drop_drop]
    rw [h57, hdrop5, ← hMlen, List.drop_left]
  have hdrop8 : (dateKeyChars y m d).drop 8 = pad d := by
    have h78 : (dateKeyChars y m d).drop 8 =
        ((dateKeyChars y m d).drop 7).drop 1 := by
      rw [List.drop_drop]
    rw [h78, hdrop7]
    rfl
  refine ⟨?_, ?_, ?_, ?_, ?_, ?_, ?_, ?_, ?_⟩
  · rw [hsplit]
    simp [hYlen, hMlen, hDlen]
  · have h40 : (dateKeyChars y m d)[4]? =
        ((dateKeyChars y m d).drop 4)[0]? := by
      rw [List.getElem?_drop]
    rw [h40, hdrop4]
    simp
  · have h70 : (dateKeyChars y m d)[7]? =
        ((dateKeyChars y m d).drop 7)[0]? := by
      rw [List.getElem?_drop]
    rw [h70, hdrop7]
    simp
  · rw [htake4]
    exact natToChars_all_digits y.toNat
  · rw [htake52]
    exact pad_all_digits (m + 1)
  · rw [hdrop8]
    exact pad_all_digits d
  · rw [htake4, charsToNat_natToChars]
    omega
  · rw [htake52, charsToNat_pad]
  · rw [hdrop8, charsToNat_pad]

/-- C5 (amended: the year lies in `[1000, 9999]` — `` `${year}` ``
renders a year below 1000 with fewer than four digits, e.g. year 999
gives the 9-character key `999-01-05`, and a negative year adds a
sign): every in-month cell's date key is the ten-character string
`YYYY-MM-DD` — a dash at positions 4 and 7, digits elsewhere — whose
blocks parse back to the 4-digit year, the 1-based zero-padded 2-digit
month, and the zero-padded 2-digit day of the cell. -/
theorem dateKey_format (s : Store) (y : Int) (m : Nat)
    (hy1 : (1000 : Int) ≤ y) (hy2 : y ≤ 9999) (hm : m < 12)
    (i : Nat) (c : Cell) (k : List Char) (dn : Nat)
    (hc : (buildCells s y m)[i]? = some c)
    (hk : c.key = some k) (hd : c.day = some dn) :
    k.length = 10
    ∧ k[4]? = some '-' ∧ k[7]? = some '-'
    ∧ (k.take 4).all Char.isDigit = true
    ∧ ((k.drop 5).take 2).all Char.isDigit = true
    ∧ (k.drop 8).all Char.isDigit = true
    ∧ (charsToNat (k.take 4) : Int) = y
    ∧ charsToNat ((k.drop 5).take 2) = m + 1
    ∧ charsToNat (k.drop 8) = dn := by
  rcases buildCells_day_eq s y m i c hc with ⟨h1, h2, h3, h4⟩ | ⟨_, h3, _⟩
  · rw [h3] at hd
    injection hd with hd
    rw [h4] at hk
    injection hk with hk
    have hdays := daysInMonth_bounds y m hm
    rw [← hk, ← hd]
    exact dateKeyChars_format y m (i + 1 - firstDay y m) hy1 hy2 hm
      (by omega) (by omega)
  · rw [h3] at hd
    cases hd

/-- C5 witness: the claim's own example, 2024-01-05. -/
theorem dateKey_format_witness :
    dateKeyChars 2024 0 5 = ['2', '0', '2', '4', '-', '0', '1', '-', '0', '5']
    ∧ ((dateKeyChars 2024 0 5).length = 10
      ∧ (dateKeyChars 2024 0 5)[4]? = some '-'
      ∧ (dateKeyChars 2024 0 5)[7]? = some '-'
      ∧ ((dateKeyChars 2024 0 5).take 4).all Char.isDigit = true
      ∧ (((dateKeyChars 2024 0 5).drop 5).take 2).all Char.isDigit = true
      ∧ ((dateKeyChars 2024 0 5).drop 8).all Char.isDigit = true
      ∧ (charsToNat ((dateKeyChars 2024 0 5).take 4) : Int) = 2024
      ∧ charsToNat (((dateKeyChars 2024 0 5).drop 5).take 2) = 0 + 1
      ∧ charsToNat ((dateKeyChars 2024 0 5).drop 8) = 5) :=
  ⟨by decide,
    dateKey_format lsEmpty 2024 0 (by decide) (by decide) (by decide)
      5 (mkDayCell lsEmpty 2024 0 5) (dateKeyChars 2024 0 5) 5
      (by decide) (by decide) (by decide)⟩

/-- C5 counterexample: for year 999 the key of the in-month cell of day
5 is the 9-character `999-01-05` — the year is rendered with three
digits, not four, so the claimed `YYYY-MM-DD` shape fails. -/
theorem dateKey_format_cex :
    (∃ c : Cell,
      (buildCells lsEmpty 999 0)[firstDay 999 0 + 5 - 1]? = some c
        ∧ c.day = some 5 ∧ c.key = some (dateKeyChars 999 0 5))
    ∧ dateKeyChars 999 0 5 = ['9', '9', '9', '-', '0', '1', '-', '0', '5']
    ∧ (dateKeyChars 999 0 5).length ≠ 10 := by
  refine ⟨⟨mkDayCell lsEmpty 999 0 5, by decide, by decide, by decide⟩,
    by decide, by decide⟩
